import Mathlib

/-!
Verification development for the `gi` viewport rendering core
(`viewport2d.go`) and the `KeyFuns` stringer (`keyfuns_string.go`).

The Go code is shallowly embedded: machine `int` coordinates become `Int`,
pixel buffers become bounds plus a pixel function, pointers that may be nil
become `Option`, and external collaborators (the `ki` tree package, `oswin`
image allocation, the widget render methods) are modelled explicitly where
the claims need them.
-/

namespace Gi

/-- `image.Point` from the Go standard library: integer x/y coordinates. -/
structure Pt where
  x : Int
  y : Int
deriving DecidableEq, Repr

def Pt.zero : Pt := ⟨0, 0⟩

def Pt.add (p q : Pt) : Pt := ⟨p.x + q.x, p.y + q.y⟩

def Pt.sub (p q : Pt) : Pt := ⟨p.x - q.x, p.y - q.y⟩

/-- `image.Rectangle`: min (inclusive) and max (exclusive) corners. -/
structure Rect where
  min : Pt
  max : Pt
deriving DecidableEq, Repr

/-- `image.ZR`, the zero rectangle. -/
def Rect.zr : Rect := ⟨Pt.zero, Pt.zero⟩

/-- `Rectangle.Empty`: true iff the rectangle contains no points. -/
def Rect.Empty (r : Rect) : Bool := r.min.x ≥ r.max.x || r.min.y ≥ r.max.y

/-- `Rectangle.Add`: translate a rectangle by a point. -/
def Rect.add (r : Rect) (p : Pt) : Rect := ⟨r.min.add p, r.max.add p⟩

/-- `Point.In`: membership of a point in a rectangle. -/
def Pt.inRect (p : Pt) (r : Rect) : Bool :=
  (r.min.x ≤ p.x && p.x < r.max.x) && (r.min.y ≤ p.y && p.y < r.max.y)

/-- `Rectangle.Intersect`: largest rectangle contained in both; returns
`image.ZR` when the intersection is empty, exactly as in the Go source. -/
def Rect.intersect (r s : Rect) : Rect :=
  let t : Rect := ⟨⟨Max.max r.min.x s.min.x, Max.max r.min.y s.min.y⟩,
                   ⟨Min.min r.max.x s.max.x, Min.min r.max.y s.max.y⟩⟩
  if t.Empty then Rect.zr else t

/-- An image buffer (`*image.RGBA`): a bounds rectangle plus the pixel
contents, polymorphic in the color type. -/
structure Img (α : Type) where
  bounds : Rect
  pix : Pt → α

/-- `draw.Draw(dst, r, src, sp, op)` from Go's `image/draw`: the drawn
region is `r` clipped by the destination bounds and by the source bounds
translated to the destination (`clip` in `image/draw`); inside it the
destination pixel at `p` becomes `op src(sp + (p - r.min)) dst(p)`.  The
compositing operator (`draw.Over` in the source) is an explicit parameter:
its arithmetic is external library code and no claim depends on it. -/
def drawDraw {α : Type} (op : α → α → α) (dst : Img α) (r : Rect) (src : Img α)
    (sp : Pt) : Img α :=
  let cl := (r.intersect dst.bounds).intersect (src.bounds.add (r.min.sub sp))
  { dst with
    pix := fun p =>
      if p.inRect cl then op (src.pix ((p.sub r.min).add sp)) (dst.pix p)
      else dst.pix p }

/-- `ViewBox2D`: position and size within the parent viewport. -/
structure ViewBox2D where
  vbMin : Pt
  size : Pt
deriving DecidableEq, Repr

/-- `ViewBox2D.Bounds()`: the rectangle from `Min` to `Min + Size`. -/
def ViewBox2D.bounds (vb : ViewBox2D) : Rect := ⟨vb.vbMin, vb.vbMin.add vb.size⟩

/-- The fields of a `Viewport2D` read by `DrawIntoParent`:
overlay flag, pixel buffer, view box, allocated layout position, window
bounding box, and (when `vp.Par != nil`) the tree parent's
`ChildrenBBox2D()` clip rectangle. -/
structure DrawVp (α : Type) where
  overlay : Bool
  pixels : Img α
  viewBox : ViewBox2D
  allocPos : Pt
  winBBox : Rect
  par : Option Rect

/-- `Viewport2D.DrawIntoParent` (viewport2d.go): overlay viewports draw
their whole buffer at the allocated position; other viewports draw their
`ViewBox` bounds intersected with the tree parent's `ChildrenBBox2D()`,
shifting the source offset by the clipped amount.  `parPix` is the parent
viewport's pixel buffer (the claims concern the non-nil-parent case). -/
def DrawIntoParent {α : Type} (op : α → α → α) (vp : DrawVp α) (parPix : Img α) :
    Img α :=
  if vp.overlay then
    drawDraw op parPix (vp.pixels.bounds.add vp.allocPos) vp.pixels Pt.zero
  else
    let r := vp.viewBox.bounds
    match vp.par with
    | some cb =>
        let nr := r.intersect cb
        drawDraw op parPix nr vp.pixels (nr.min.sub r.min)
    | none => drawDraw op parPix r vp.pixels Pt.zero

/-! ## Damage classifier (`SignalViewport2D`) -/

/-- Deletion status flags of the destination viewport (`vp.IsDeleted()`,
`vp.IsDestroyed()`).  `SignalViewport2D` receives the viewport but, in the
source, never consults these flags. -/
structure VpFlags where
  deleted : Bool
  destroyed : Bool
deriving DecidableEq, Repr

/-- Status of the emitting node `send` as consulted by `SignalViewport2D`:
deletion flags, the mid-update flag (`IsUpdatingAtomic`), whether
`ReRender2D()` returns a non-nil node, the `layout` flag it returns with,
and whether `ParentReRenderAnchor()` finds an anchor. -/
structure SendNode where
  deleted : Bool
  destroyed : Bool
  updating : Bool
  canReRender : Bool
  reLayout : Bool
  hasAnchor : Bool
deriving DecidableEq, Repr

/-- The five classifier outcomes.  `ignore` covers all early returns
(non-viewport receiver, nil node, deleted/destroyed/updating sender).
`reRenderNode` records whether `Layout2DTree` is run first (the `layout`
result of `ReRender2D`). -/
inductive VpAction where
  | ignore
  | fullRender2DTree
  | reRenderNode (layout : Bool)
  | reRenderAnchor
  | reRenderTree
deriving DecidableEq, Repr

/-- `bitflag.HasMask`: true iff `flags` and `mask` share a set bit. -/
def bitflagHasMask (flags mask : Nat) : Bool := flags.land mask != 0

/-- `SignalViewport2D` (viewport2d.go): the damage classifier.  `vp` is
`none` when the receiver is not a viewport (`AsViewport2D() == nil`),
`send` is `none` when `KiToNode2D(send)` fails.  `sigIsUpdated` is the
test `sig == int64(ki.NodeSignalUpdated)`; `dflags` is the `int64` data
payload, tested against the external `ki.ValUpdateFlagsMask` and
`ki.StruUpdateFlagsMask` constants (passed in as `valMask`/`struMask`). -/
def SignalViewport2D (vp : Option VpFlags) (send : Option SendNode)
    (sigIsUpdated : Bool) (dflags valMask struMask : Nat) : VpAction :=
  match vp with
  | none => .ignore
  | some _ =>
    match send with
    | none => .ignore
    | some gi =>
      if gi.deleted || gi.destroyed then .ignore
      else if gi.updating then .ignore
      else
        let fullRend :=
          if sigIsUpdated then
            let vlupdt := bitflagHasMask dflags valMask
            let strupdt := bitflagHasMask dflags struMask
            if vlupdt && !strupdt then false
            else if strupdt then true
            else false
          else true
        if fullRend then .fullRender2DTree
        else if gi.canReRender then .reRenderNode gi.reLayout
        else if gi.hasAnchor then .reRenderAnchor
        else .reRenderTree

/-- The `NodeSig` handler installed by `Viewport2D.Init2D`: on a node
signal to the viewport itself it performs `FullRender2DTree` unless the
viewport is deleted or destroyed, in which case it does nothing. -/
def initNodeSigAction (vp : VpFlags) : VpAction :=
  if !vp.deleted && !vp.destroyed then .fullRender2DTree else .ignore

/-- The classifier exactly as claim C2 states it (first match wins):
(1) ignore for deleted/destroyed/mid-update; (2) full-tree re-render if
the signal kind is structure-updated or the signal is not a
`NodeSignalUpdated` value change (read as: not a `NodeSignalUpdated`
signal); (3) node re-render with no layout if the kind is value-updated
and the node can self re-render; (4) anchor re-render if an anchor
exists; (5) otherwise re-render the whole viewport subtree. -/
def claimedClassifierC2 (gi : SendNode) (sigIsUpdated : Bool)
    (dflags valMask struMask : Nat) : VpAction :=
  if gi.deleted || gi.destroyed || gi.updating then .ignore
  else if (sigIsUpdated && bitflagHasMask dflags struMask) || !sigIsUpdated then
    .fullRender2DTree
  else if sigIsUpdated && bitflagHasMask dflags valMask && gi.canReRender then
    .reRenderNode false
  else if gi.hasAnchor then .reRenderAnchor
  else .reRenderTree

/-- The classifier precedence as amended: branch 3 fires for any
non-full-render signal whose node's `ReRender2D` returns a target,
whether or not value-update flags are present, and runs layout first when
the target requests it. -/
def amendedClassifierC2 (gi : SendNode) (sigIsUpdated : Bool)
    (dflags valMask struMask : Nat) : VpAction :=
  if gi.deleted || gi.destroyed || gi.updating then .ignore
  else if (sigIsUpdated && bitflagHasMask dflags struMask) || !sigIsUpdated then
    .fullRender2DTree
  else if gi.canReRender then .reRenderNode gi.reLayout
  else if gi.hasAnchor then .reRenderAnchor
  else .reRenderTree

/-! ## Signal-sequence rendering model (claim C1) -/

/-- A display image as a total pixel function (colors as `Nat`). -/
abbrev Pix : Type := Pt → Nat

/-- Repaint `region` of `px` from `new`, leaving other pixels untouched:
the effect of re-rendering and uploading a bounded rectangle. -/
def patch (px new : Pix) (region : Pt → Bool) : Pix :=
  fun p => if region p then new p else px p

/-- One mutation signal delivered to the viewport: the emitting node's
classifier-relevant status, the signal kind data, the tree-state mutation
it performs, and the pixel regions a node-level (`gn.VpBBox`) or
anchor-level re-render repaints. -/
structure SigEvent (S : Type) where
  node : SendNode
  sigIsUpdated : Bool
  dflags : Nat
  mutate : S → S
  region : Pt → Bool
  anchorRegion : Pt → Bool

/-- Modelled from the spec: the render primitives called by
`SignalViewport2D` (`FullRender2DTree`, `ReRender2DTree`,
`ReRender2DNode`/`Render2DTree`, `ReRender2DAnchor`) are not under `src/`;
per the spec they are idempotent recomputations from the tree state, a
full-tree render producing `fullRender s` and the node/anchor actions
repainting exactly the touched region with the recomputed pixels.  One
classifier step: mutate the tree state, classify via `SignalViewport2D`,
then apply the chosen action to the pixel buffer. -/
def execSignal {S : Type} (valMask struMask : Nat) (fullRender : S → Pix)
    (st : S × Pix) (ev : SigEvent S) : S × Pix :=
  let s1 := ev.mutate st.1
  match SignalViewport2D (some ⟨false, false⟩) (some ev.node) ev.sigIsUpdated
      ev.dflags valMask struMask with
  | .ignore => (s1, st.2)
  | .fullRender2DTree => (s1, fullRender s1)
  | .reRenderNode _ => (s1, patch st.2 (fullRender s1) ev.region)
  | .reRenderAnchor => (s1, patch st.2 (fullRender s1) ev.anchorRegion)
  | .reRenderTree => (s1, fullRender s1)

/-- Run a sequence of signals through the classifier. -/
def execSignals {S : Type} (valMask struMask : Nat) (fullRender : S → Pix)
    (st : S × Pix) (evs : List (SigEvent S)) : S × Pix :=
  evs.foldl (execSignal valMask struMask fullRender) st

/-! ## Pixel surface resize (`Resize`, claims C7-C9) -/

/-- An allocated image: an allocation identity (so buffer identity is
trackable), its size (bounds are `0,0`-based, as `oswin` images are), and
its pixel contents. -/
structure RImg where
  id : Nat
  size : Pt
  pix : Pt → Nat

/-- `Pixels.Bounds()` for an allocated image. -/
def RImg.boundsOf (px : RImg) : Rect := ⟨Pt.zero, px.size⟩

/-- The `Viewport2D` state touched by `Resize`: the `Pixels` buffer, the
`OSImage` handle (by allocation id), `ViewBox.Size`, the list of released
OS images (most recent first), and the next fresh allocation id. -/
structure RVp where
  pixels : Option RImg
  osImage : Option Nat
  viewBoxSize : Pt
  released : List Nat
  nextId : Nat

/-- `Viewport2D.Resize` (viewport2d.go).  `alloc` is the
`oswin.TheApp.NewImage` success oracle; on failure the error is logged and
the assignment `vp.OSImage, err = NewImage(nwsz)` leaves a nil handle (Go
returns a nil image with a non-nil error).  Zero-size requests return
immediately; a request matching the current buffer size only refreshes
`ViewBox.Size`; otherwise the old OS image is released, then a new one is
allocated. -/
def Resize (alloc : Pt → Bool) (vp : RVp) (nwsz : Pt) : RVp :=
  if nwsz.x = 0 ∨ nwsz.y = 0 then vp
  else
    let same := match vp.pixels with
      | some px => px.size == nwsz
      | none => false
    if same then { vp with viewBoxSize := nwsz }
    else
      let v1 := match vp.osImage with
        | some oid => { vp with released := oid :: vp.released }
        | none => vp
      if alloc nwsz then
        { v1 with
          osImage := some v1.nextId
          pixels := some ⟨v1.nextId, nwsz, fun _ => 0⟩
          viewBoxSize := nwsz
          nextId := v1.nextId + 1 }
      else { v1 with osImage := none }

/-- The `Viewport2D` fields read by `BBox2D`: the resize state, the popup
flag, and the allocated layout size. -/
structure BVp where
  rvp : RVp
  isPopup : Bool
  allocSize : Pt

/-- Modelled from the spec: `Vec2D.IsZero` (the math type behind
`LayData.AllocSize`) is not under `src/`; it tests whether the vector is
the zero vector, i.e. both components are zero.  Sizes are modelled as
integers (`ToPointCeil` is the identity on integral sizes). -/
def vec2DIsZero (p : Pt) : Bool := p.x == 0 && p.y == 0

/-- `Viewport2D.BBox2D` (viewport2d.go): non-popups (or any viewport with
a nil buffer) resize to the allocated size when it is nonzero, else to the
64x64 default when the buffer is nil; finally `vp.Pixels.Bounds()` is
returned — `none` models the nil-pointer dereference when `Pixels` is
still nil at that point. -/
def BBox2D (alloc : Pt → Bool) (vp : BVp) : BVp × Option Rect :=
  let v1 :=
    if vp.rvp.pixels.isNone || !vp.isPopup then
      if !(vec2DIsZero vp.allocSize) then
        { vp with rvp := Resize alloc vp.rvp vp.allocSize }
      else if vp.rvp.pixels.isNone then
        { vp with rvp := Resize alloc vp.rvp ⟨64, 64⟩ }
      else vp
    else vp
  (v1, v1.rvp.pixels.map RImg.boundsOf)

/-! ## Scoped clipping (`PushBounds`/`PopBounds`/`Render2D`, claim C6) -/

/-- Modelled from the spec: `RenderState` (the paint context) is not under
`src/`; per the spec it carries a per-surface clip stack with push and pop
operations.  `popBounds` of an empty stack leaves it empty. -/
structure RenderSt where
  boundsStack : List Rect
deriving DecidableEq, Repr

def RenderSt.pushBounds (rs : RenderSt) (b : Rect) : RenderSt :=
  ⟨b :: rs.boundsStack⟩

def RenderSt.popBounds (rs : RenderSt) : RenderSt := ⟨rs.boundsStack.tail⟩

/-- The `Viewport2D` fields read by `PushBounds`/`PopBounds`/`Render2D`:
the overlay flag, own `VpBBox` and `WinBBox`, whether `vp.Viewport` (the
parent viewport) is non-nil together with its window box and pixel
bounds, and the two clip stacks involved: the viewport's own
(`vp.Render`) and its parent's (`vp.Viewport.Render`). -/
structure ClipVp where
  overlay : Bool
  vpBBox : Rect
  winBBox : Rect
  hasParent : Bool
  parentWinBBox : Rect
  parentPixBounds : Rect
  render : RenderSt
  parentRender : RenderSt
deriving DecidableEq, Repr

/-- `Viewport2D.PushBounds` (viewport2d.go): overlays push the parent
viewport's full pixel bounds onto the PARENT's render stack (when a parent
exists) and always proceed; non-overlays refuse on an empty `VpBBox` or an
empty window-box intersection with the parent, else push their `VpBBox`
onto their own stack. -/
def PushBounds (vp : ClipVp) : Bool × ClipVp :=
  if vp.overlay then
    if vp.hasParent then
      (true, { vp with parentRender := vp.parentRender.pushBounds vp.parentPixBounds })
    else (true, vp)
  else if vp.vpBBox.Empty then (false, vp)
  else if vp.hasParent && (vp.winBBox.intersect vp.parentWinBBox).Empty then
    (false, vp)
  else (true, { vp with render := vp.render.pushBounds vp.vpBBox })

/-- `Viewport2D.PopBounds` (viewport2d.go): pops the viewport's OWN
render stack. -/
def PopBounds (vp : ClipVp) : ClipVp := { vp with render := vp.render.popBounds }

/-- `Viewport2D.Render2D` (viewport2d.go) restricted to its clip-stack
effect: on a successful push, fill and child rendering happen (children
rendering is external `Render2DChildren` code, abstracted as the `children`
state transformer; filling and `RenderViewport2D` do not touch clip
stacks), then `PopBounds`; on a refused push nothing else runs. -/
def Render2D (children : ClipVp → ClipVp) (vp : ClipVp) : ClipVp :=
  let pr := PushBounds vp
  if pr.1 then PopBounds (children pr.2) else pr.2

/-! ## KeyFuns stringer (`keyfuns_string.go`, claim C10) -/

/-- `_KeyFuns_name`: the concatenated names of all `KeyFuns` values. -/
def KeyFunsName : String := "KeyFunNilKeyFunMoveUpKeyFunMoveDownKeyFunMoveRightKeyFunMoveLeftKeyFunPageUpKeyFunPageDownKeyFunPageRightKeyFunPageLeftKeyFunHomeKeyFunEndKeyFunDocHomeKeyFunDocEndKeyFunWordRightKeyFunWordLeftKeyFunFocusNextKeyFunFocusPrevKeyFunEnterKeyFunAcceptKeyFunCancelSelectKeyFunSelectModeKeyFunSelectAllKeyFunAbortKeyFunEditItemKeyFunCopyKeyFunCutKeyFunPasteKeyFunBackspaceKeyFunBackspaceWordKeyFunDeleteKeyFunDeleteWordKeyFunKillKeyFunDuplicateKeyFunUndoKeyFunRedoKeyFunInsertKeyFunInsertAfterKeyFunGoGiEditorKeyFunZoomOutKeyFunZoomInKeyFunPrefsKeyFunRefreshKeyFunRecenterKeyFunCompleteKeyFunSearchKeyFunFindKeyFunJumpKeyFunHistPrevKeyFunHistNextKeyFunsN"

/-- `_KeyFuns_index`: the start offset of each name within `KeyFunsName`. -/
def KeyFunsIndex : List Nat := [0, 9, 21, 35, 50, 64, 76, 90, 105, 119, 129, 138, 151, 163, 178, 192, 207, 222, 233, 245, 263, 279, 294, 305, 319, 329, 338, 349, 364, 383, 395, 411, 421, 436, 446, 456, 468, 485, 501, 514, 526, 537, 550, 564, 578, 590, 600, 610, 624, 638, 646]

/-- Byte slicing `s[a:b]` of the (pure-ASCII) name string: character
indices coincide with byte indices. -/
def strSlice (s : String) (a b : Nat) : String :=
  String.mk ((s.data.drop a).take (b - a))

/-- `KeyFuns.String` (keyfuns_string.go): out-of-range codes format as
`KeyFuns(i)`, in-range codes slice their name out of `KeyFunsName`. -/
def KeyFunsString (i : Int) : String :=
  if i < 0 ∨ (KeyFunsIndex.length : Int) - 1 ≤ i then
    "KeyFuns(" ++ toString i ++ ")"
  else
    strSlice KeyFunsName (KeyFunsIndex.getD i.toNat 0)
      (KeyFunsIndex.getD (i.toNat + 1) 0)

/-- `KeyFuns.FromString` (keyfuns_string.go): scan codes `0..len-2` for
the first whose name equals `s`; `some j` models a nil error with the
receiver set to `j`, `none` models the returned error. -/
def KeyFunsFromString (s : String) : Option Int :=
  ((List.range (KeyFunsIndex.length - 1)).find? fun j =>
      s == strSlice KeyFunsName (KeyFunsIndex.getD j 0)
        (KeyFunsIndex.getD (j + 1) 0)).map Int.ofNat

/-! ## Concrete instances used to evaluate the embedded operations -/

/-- A 2x2 overlay viewport whose tree parent clips children to 1x1. -/
def c4vp : DrawVp Nat :=
  ⟨true, ⟨⟨Pt.zero, ⟨2, 2⟩⟩, fun _ => 5⟩, ⟨Pt.zero, Pt.zero⟩, ⟨1, 1⟩,
    Rect.zr, some ⟨Pt.zero, ⟨1, 1⟩⟩⟩

/-- A 3x3 parent buffer. -/
def c4par : Img Nat := ⟨⟨Pt.zero, ⟨3, 3⟩⟩, fun _ => 7⟩

/-- A nested non-overlay viewport: viewBox 3x3 at (1,1), parent clip 2x2. -/
def c5vp : DrawVp Nat :=
  ⟨false, ⟨⟨Pt.zero, ⟨3, 3⟩⟩, fun _ => 5⟩, ⟨⟨1, 1⟩, ⟨3, 3⟩⟩, Pt.zero,
    Rect.zr, some ⟨Pt.zero, ⟨2, 2⟩⟩⟩

/-- A 4x4 parent buffer for the nested case. -/
def c5par : Img Nat := ⟨⟨Pt.zero, ⟨4, 4⟩⟩, fun _ => 7⟩

/-- An overlay viewport with a parent whose own clip stack holds one
entry and whose parent's stack is empty. -/
def c6vp : ClipVp :=
  ⟨true, Rect.zr, Rect.zr, true, Rect.zr, ⟨Pt.zero, ⟨4, 4⟩⟩,
    ⟨[Rect.zr]⟩, ⟨[]⟩⟩

/-- A non-overlay viewport with nonempty boxes, for the balanced case. -/
def c6vpPlain : ClipVp :=
  ⟨false, ⟨Pt.zero, ⟨2, 2⟩⟩, ⟨Pt.zero, ⟨2, 2⟩⟩, true, ⟨Pt.zero, ⟨2, 2⟩⟩,
    ⟨Pt.zero, ⟨4, 4⟩⟩, ⟨[]⟩, ⟨[]⟩⟩

/-- A viewport owning a live 2x2 buffer (allocation id 3). -/
def c7vp : RVp := ⟨some ⟨3, ⟨2, 2⟩, fun _ => 9⟩, some 3, ⟨2, 2⟩, [], 4⟩

/-- A viewport owning a live 2x2 buffer (allocation id 1), about to be
resized to 3x3 under a failing allocator. -/
def c8vp : RVp := ⟨some ⟨1, ⟨2, 2⟩, fun _ => 0⟩, some 1, ⟨2, 2⟩, [], 5⟩

/-- A buffer-less non-popup viewport with a zero allocated size. -/
def c9vpZero : BVp := ⟨⟨none, none, Pt.zero, [], 0⟩, false, Pt.zero⟩

/-- A buffer-less non-popup viewport whose allocated size is zero in
exactly the second dimension. -/
def c9vpHalf : BVp := ⟨⟨none, none, Pt.zero, [], 0⟩, false, ⟨7, 0⟩⟩

/-- A buffer-less non-popup viewport whose allocated size is zero in
exactly the first dimension. -/
def c9vpHalfY : BVp := ⟨⟨none, none, Pt.zero, [], 0⟩, false, ⟨0, 7⟩⟩

/-! ## Theorems -/

/-- C2 counterexample: two concrete signals on which `SignalViewport2D`
disagrees with the claim's stated precedence.  First, a `NodeSignalUpdated`
signal whose flags carry neither a value-update nor a structure-update bit
(`dflags = 0` against masks `1`/`2`), from a live node that can self
re-render and has an anchor: the code picks node re-render, the claimed
precedence (branch 3 requires the kind to be value-updated) picks anchor
re-render.  Second, a value-updated signal whose `ReRender2D` requests
layout: the code runs layout with the node re-render, the claim says node
re-render happens with no layout. -/
theorem signalViewport2D_c2_counterexample :
    claimedClassifierC2 ⟨false, false, false, true, false, true⟩ true 0 1 2
      ≠ SignalViewport2D (some ⟨false, false⟩)
          (some ⟨false, false, false, true, false, true⟩) true 0 1 2
    ∧ claimedClassifierC2 ⟨false, false, false, true, true, false⟩ true 1 1 2
      ≠ SignalViewport2D (some ⟨false, false⟩)
          (some ⟨false, false, false, true, true, false⟩) true 1 1 2 := by
  decide

/-- C2 (amended): `SignalViewport2D` realizes the five-action precedence
with branch 3 amended: it fires for every non-full-render signal whose
node's `ReRender2D` returns a target (value-update flags are not
consulted), and performs layout first when the target requests it; the
destination viewport's own flags are never consulted. -/
theorem signalViewport2D_matches_amended_classifier (v : VpFlags)
    (gi : SendNode) (sigIsUpdated : Bool) (dflags valMask struMask : Nat) :
    SignalViewport2D (some v) (some gi) sigIsUpdated dflags valMask struMask
      = amendedClassifierC2 gi sigIsUpdated dflags valMask struMask := by
  rcases gi with ⟨d, ds, u, cr, rl, ha⟩
  simp only [SignalViewport2D, amendedClassifierC2]
  cases d <;> cases ds <;> cases u <;> cases sigIsUpdated <;>
    cases hv : bitflagHasMask dflags valMask <;>
    cases hs : bitflagHasMask dflags struMask <;>
    simp [hv, hs]

/-- C3 counterexample: a signal whose destination viewport is destroyed
but whose emitting node is alive is NOT ignored — `SignalViewport2D`
never consults the viewport's deleted/destroyed flags and here performs a
full-tree re-render. -/
theorem signalViewport2D_c3_counterexample :
    SignalViewport2D (some ⟨false, true⟩)
        (some ⟨false, false, false, false, false, false⟩) false 0 1 2
      = VpAction.fullRender2DTree
    ∧ VpAction.fullRender2DTree ≠ VpAction.ignore := by
  decide

/-- C3 (amended): the Ignore guarantee holds for the EMITTING node: a
deleted, destroyed, or mid-update sender yields `ignore` for every signal
kind and viewport state; the destination-viewport deleted/destroyed check
lives in the separate `Init2D` NodeSig handler, which does nothing when
the viewport is deleted or destroyed. -/
theorem signalViewport2D_c3_amended :
    (∀ (v : VpFlags) (d u cr rl ha : Bool) (sig : Bool) (df vm sm : Nat),
      SignalViewport2D (some v) (some ⟨d, true, u, cr, rl, ha⟩) sig df vm sm
        = VpAction.ignore)
    ∧ (∀ (v : VpFlags) (ds u cr rl ha : Bool) (sig : Bool) (df vm sm : Nat),
      SignalViewport2D (some v) (some ⟨true, ds, u, cr, rl, ha⟩) sig df vm sm
        = VpAction.ignore)
    ∧ (∀ (v : VpFlags) (d ds cr rl ha : Bool) (sig : Bool) (df vm sm : Nat),
      SignalViewport2D (some v) (some ⟨d, ds, true, cr, rl, ha⟩) sig df vm sm
        = VpAction.ignore)
    ∧ (∀ d : Bool, initNodeSigAction ⟨d, true⟩ = VpAction.ignore
        ∧ initNodeSigAction ⟨true, d⟩ = VpAction.ignore) := by
  refine ⟨?_, ?_, ?_, ?_⟩
  · intro v d u cr rl ha sig df vm sm
    simp [SignalViewport2D]
  · intro v ds u cr rl ha sig df vm sm
    simp [SignalViewport2D]
  · intro v d ds cr rl ha sig df vm sm
    cases d <;> cases ds <;> simp [SignalViewport2D]
  · intro d
    cases d <;> simp [initNodeSigAction]

/-- C1: for every sequence of mutation signals run through the classifier,
the final pixels equal a single full-tree re-render of the final tree
state, provided each signal obeys the node contracts the spec states:
an ignored signal's mutation does not change the rendered output (deleted
and destroyed nodes are never rendered, mid-update nodes re-signal), and a
node- or anchor-level re-render's mutation only changes pixels inside the
repainted region (`ReRender2D`'s repaint-only contract, and the anchor's
contract of covering all its descendants). -/
theorem signal_sequence_equals_full_render {S : Type} (valMask struMask : Nat)
    (fullRender : S → Pix) (evs : List (SigEvent S)) (s0 : S) (px0 : Pix)
    (hpx0 : px0 = fullRender s0)
    (hloc : ∀ ev ∈ evs, ∀ s : S,
      (SignalViewport2D (some ⟨false, false⟩) (some ev.node) ev.sigIsUpdated
          ev.dflags valMask struMask = VpAction.ignore →
        fullRender (ev.mutate s) = fullRender s)
      ∧ (∀ l : Bool,
          SignalViewport2D (some ⟨false, false⟩) (some ev.node) ev.sigIsUpdated
            ev.dflags valMask struMask = VpAction.reRenderNode l →
          ∀ p : Pt, ev.region p = false →
            fullRender (ev.mutate s) p = fullRender s p)
      ∧ (SignalViewport2D (some ⟨false, false⟩) (some ev.node) ev.sigIsUpdated
            ev.dflags valMask struMask = VpAction.reRenderAnchor →
          ∀ p : Pt, ev.anchorRegion p = false →
            fullRender (ev.mutate s) p = fullRender s p)) :
    (execSignals valMask struMask fullRender (s0, px0) evs).2
      = fullRender (execSignals valMask struMask fullRender (s0, px0) evs).1 := by
  induction evs generalizing s0 px0 with
  | nil => simpa [execSignals] using hpx0
  | cons ev rest ih =>
    have hstep :
        (execSignal valMask struMask fullRender (s0, px0) ev).2
          = fullRender (execSignal valMask struMask fullRender (s0, px0) ev).1 := by
      have hev := hloc ev (List.mem_cons_self ev rest) s0
      unfold execSignal
      cases hact : SignalViewport2D (some ⟨false, false⟩) (some ev.node)
          ev.sigIsUpdated ev.dflags valMask struMask with
      | ignore =>
        simp only
        rw [hpx0, hev.1 hact]
      | fullRender2DTree => simp only
      | reRenderNode l =>
        simp only
        funext p
        by_cases hr : ev.region p = true
        · simp [patch, hr]
        · have hr0 : ev.region p = false := by
            cases h : ev.region p
            · rfl
            · exact absurd h hr
          have := hev.2.1 l hact p hr0
          simp [patch, hr0, hpx0, this]
      | reRenderAnchor =>
        simp only
        funext p
        by_cases hr : ev.anchorRegion p = true
        · simp [patch, hr]
        · have hr0 : ev.anchorRegion p = false := by
            cases h : ev.anchorRegion p
            · rfl
            · exact absurd h hr
          have := hev.2.2 hact p hr0
          simp [patch, hr0, hpx0, this]
      | reRenderTree => simp only
    have hrest : ∀ ev2 ∈ rest, ∀ s : S,
        (SignalViewport2D (some ⟨false, false⟩) (some ev2.node) ev2.sigIsUpdated
            ev2.dflags valMask struMask = VpAction.ignore →
          fullRender (ev2.mutate s) = fullRender s)
        ∧ (∀ l : Bool,
            SignalViewport2D (some ⟨false, false⟩) (some ev2.node)
              ev2.sigIsUpdated ev2.dflags valMask struMask
              = VpAction.reRenderNode l →
            ∀ p : Pt, ev2.region p = false →
              fullRender (ev2.mutate s) p = fullRender s p)
        ∧ (SignalViewport2D (some ⟨false, false⟩) (some ev2.node)
              ev2.sigIsUpdated ev2.dflags valMask struMask
              = VpAction.reRenderAnchor →
            ∀ p : Pt, ev2.anchorRegion p = false →
              fullRender (ev2.mutate s) p = fullRender s p) :=
      fun ev2 h2 => hloc ev2 (List.mem_cons_of_mem ev h2)
    have := ih (execSignal valMask struMask fullRender (s0, px0) ev).1
      (execSignal valMask struMask fullRender (s0, px0) ev).2 hstep hrest
    simpa [execSignals, List.foldl_cons] using this

/-- C1 witness: a concrete run — state counts the mutations, the full
render paints the count everywhere, and a single non-`NodeSignalUpdated`
signal (classified as a full-tree re-render) is delivered. -/
theorem signal_sequence_equals_full_render_witness :
    (execSignals 1 2 (fun s => fun _ => s) ((0 : Nat), fun _ => 0)
        [⟨⟨false, false, false, false, false, false⟩, false, 0,
          fun s => s + 1, fun _ => false, fun _ => false⟩]).2
      = (fun s => fun _ => s)
          (execSignals 1 2 (fun s => fun _ => s) ((0 : Nat), fun _ => 0)
            [⟨⟨false, false, false, false, false, false⟩, false, 0,
              fun s => s + 1, fun _ => false, fun _ => false⟩]).1 :=
  signal_sequence_equals_full_render 1 2 (fun s => fun _ => s) _ 0 (fun _ => 0)
    rfl
    (fun ev hev s => by
      have h := List.mem_singleton.mp hev
      subst h
      refine ⟨?_, ?_, ?_⟩
      · intro h2
        exact nomatch h2
      · intro l h2
        exact nomatch h2
      · intro h2
        exact nomatch h2)

theorem Pt.zero_add (p : Pt) : Pt.zero.add p = p := by
  cases p
  simp [Pt.add, Pt.zero]

theorem Pt.add_zero (p : Pt) : p.add Pt.zero = p := by
  cases p
  simp [Pt.add, Pt.zero]

theorem Pt.sub_zero (p : Pt) : p.sub Pt.zero = p := by
  cases p
  simp [Pt.sub, Pt.zero]

theorem Pt.sub_add_sub (p a b : Pt) : (p.sub a).add (a.sub b) = p.sub b := by
  cases p
  cases a
  cases b
  simp only [Pt.sub, Pt.add, Pt.mk.injEq]
  omega

/-- Membership in a Go rectangle intersection is conjunction of the
memberships (the `ZR` normalization of empty results contains no point
either way). -/
theorem inRect_intersect (p : Pt) (r s : Rect) :
    p.inRect (r.intersect s) = (p.inRect r && p.inRect s) := by
  have hiff : p.inRect (r.intersect s) = true
      ↔ (p.inRect r && p.inRect s) = true := by
    simp only [Rect.intersect, Pt.inRect, Rect.Empty, Rect.zr, Pt.zero,
      Bool.and_eq_true, Bool.or_eq_true, decide_eq_true_eq]
    split <;> rename_i h <;> (try dsimp only at h ⊢) <;> constructor <;>
      intro hc <;> (try dsimp only at hc) <;> omega
  cases hl : p.inRect (r.intersect s) <;> cases hr2 : p.inRect r <;>
    cases hr3 : p.inRect s <;> simp_all

/-- An empty rectangle contains no point. -/
theorem empty_not_inRect (r : Rect) (h : r.Empty = true) (p : Pt) :
    p.inRect r = false := by
  cases hc : p.inRect r
  · rfl
  · exfalso
    simp only [Rect.Empty, Bool.or_eq_true, decide_eq_true_eq] at h
    simp only [Pt.inRect, Bool.and_eq_true, decide_eq_true_eq] at hc
    omega

/-- The pixel function computed by `drawDraw`, unfolded. -/
theorem drawDraw_pix {α : Type} (op : α → α → α) (dst : Img α) (r : Rect)
    (src : Img α) (sp : Pt) (p : Pt) :
    (drawDraw op dst r src sp).pix p =
      if p.inRect ((r.intersect dst.bounds).intersect
          (src.bounds.add (r.min.sub sp))) then
        op (src.pix ((p.sub r.min).add sp)) (dst.pix p)
      else dst.pix p := rfl

/-- C4: overlay compositing is completely unclipped — `DrawIntoParent` on
an overlay viewport copies the whole buffer (composited with `op`, which
is `draw.Over` in the source) at the allocated position; every point of
the translated overlay bounds that lies in the parent buffer is painted,
no other point changes, and the result is independent of the tree
parent's `ChildrenBBox2D` clip rectangle and of the window boxes. -/
theorem drawIntoParent_overlay_unclipped {α : Type} (op : α → α → α)
    (vp : DrawVp α) (parPix : Img α)
    (hov : vp.overlay = true) (hmin : vp.pixels.bounds.min = Pt.zero) :
    (∀ p : Pt,
        p.inRect ((vp.pixels.bounds.add vp.allocPos).intersect parPix.bounds)
          = true →
        (DrawIntoParent op vp parPix).pix p
          = op (vp.pixels.pix (p.sub vp.allocPos)) (parPix.pix p))
    ∧ (∀ p : Pt,
        p.inRect ((vp.pixels.bounds.add vp.allocPos).intersect parPix.bounds)
          = false →
        (DrawIntoParent op vp parPix).pix p = parPix.pix p)
    ∧ (∀ (cb : Option Rect) (w : Rect),
        DrawIntoParent op { vp with par := cb, winBBox := w } parPix
          = DrawIntoParent op vp parPix)
    ∧ (DrawIntoParent op vp parPix).bounds = parPix.bounds := by
  have hR : (vp.pixels.bounds.add vp.allocPos).min = vp.allocPos := by
    simp [Rect.add, hmin, Pt.zero_add]
  have h3 : vp.pixels.bounds.add
        ((vp.pixels.bounds.add vp.allocPos).min.sub Pt.zero)
      = vp.pixels.bounds.add vp.allocPos := by
    rw [hR, Pt.sub_zero]
  have hdr : DrawIntoParent op vp parPix
      = drawDraw op parPix (vp.pixels.bounds.add vp.allocPos) vp.pixels
          Pt.zero := by
    simp [DrawIntoParent, hov]
  have hmem : ∀ p : Pt,
      p.inRect (((vp.pixels.bounds.add vp.allocPos).intersect parPix.bounds).intersect
          (vp.pixels.bounds.add
            ((vp.pixels.bounds.add vp.allocPos).min.sub Pt.zero)))
        = p.inRect ((vp.pixels.bounds.add vp.allocPos).intersect parPix.bounds) := by
    intro p
    rw [h3, inRect_intersect, inRect_intersect]
    cases p.inRect (vp.pixels.bounds.add vp.allocPos) <;>
      cases p.inRect parPix.bounds <;> rfl
  refine ⟨?_, ?_, ?_, ?_⟩
  · intro p hp
    rw [hdr, drawDraw_pix, hmem p, hp]
    simp [hR, Pt.add_zero]
  · intro p hp
    rw [hdr, drawDraw_pix, hmem p, hp]
    simp
  · intro cb w
    simp [DrawIntoParent, hov]
  · rw [hdr]
    rfl

/-- C5: nested (non-overlay) compositing draws exactly the intersection of
the `viewBox` bounds with the tree parent's `ChildrenBBox2D` rectangle:
an empty intersection leaves the parent buffer identical; no point
outside the intersection changes; and inside it (where the parent buffer
and the translated source exist) the destination pixel at `p` is
composited from the source pixel at `p - viewBox.Min`, i.e. the source
offset is shifted by exactly the amount clipped off the top-left. -/
theorem drawIntoParent_nested_clipped {α : Type} (op : α → α → α)
    (vp : DrawVp α) (parPix : Img α) (cb : Rect)
    (hov : vp.overlay = false) (hpar : vp.par = some cb) :
    ((vp.viewBox.bounds.intersect cb).Empty = true →
      DrawIntoParent op vp parPix = parPix)
    ∧ (∀ p : Pt, p.inRect (vp.viewBox.bounds.intersect cb) = false →
        (DrawIntoParent op vp parPix).pix p = parPix.pix p)
    ∧ (∀ p : Pt,
        (p.inRect (vp.viewBox.bounds.intersect cb)
          && p.inRect parPix.bounds
          && p.inRect (vp.pixels.bounds.add vp.viewBox.vbMin)) = true →
        (DrawIntoParent op vp parPix).pix p
          = op (vp.pixels.pix (p.sub vp.viewBox.vbMin)) (parPix.pix p)) := by
  have hdr : DrawIntoParent op vp parPix
      = drawDraw op parPix (vp.viewBox.bounds.intersect cb) vp.pixels
          ((vp.viewBox.bounds.intersect cb).min.sub vp.viewBox.bounds.min) := by
    simp [DrawIntoParent, hov, hpar]
  have hmin2 : (vp.viewBox.bounds.intersect cb).min.sub
      ((vp.viewBox.bounds.intersect cb).min.sub vp.viewBox.bounds.min)
      = vp.viewBox.bounds.min := by
    cases (vp.viewBox.bounds.intersect cb).min
    cases vp.viewBox.bounds.min
    simp only [Pt.sub, Pt.mk.injEq]
    omega
  have hsrc : vp.pixels.bounds.add
        ((vp.viewBox.bounds.intersect cb).min.sub
          ((vp.viewBox.bounds.intersect cb).min.sub vp.viewBox.bounds.min))
      = vp.pixels.bounds.add vp.viewBox.vbMin := by
    rw [hmin2]
    rfl
  have hsp : ∀ p : Pt,
      (p.sub (vp.viewBox.bounds.intersect cb).min).add
        ((vp.viewBox.bounds.intersect cb).min.sub vp.viewBox.bounds.min)
      = p.sub vp.viewBox.vbMin := by
    intro p
    rw [Pt.sub_add_sub]
    rfl
  refine ⟨?_, ?_, ?_⟩
  · intro hemp
    rw [hdr]
    cases hpp : parPix with
    | mk b f =>
      simp only [drawDraw]
      congr 1
      funext p
      have hfalse : p.inRect (((vp.viewBox.bounds.intersect cb).intersect b).intersect
          (vp.pixels.bounds.add ((vp.viewBox.bounds.intersect cb).min.sub
            ((vp.viewBox.bounds.intersect cb).min.sub vp.viewBox.bounds.min))))
          = false := by
        rw [inRect_intersect, inRect_intersect,
          empty_not_inRect _ hemp p]
        rfl
      rw [hfalse]
      simp
  · intro p hp
    rw [hdr, drawDraw_pix, inRect_intersect, inRect_intersect, hp]
    simp
  · intro p hp
    simp only [Bool.and_eq_true] at hp
    rw [hdr, drawDraw_pix, inRect_intersect, inRect_intersect, hsrc]
    rw [hp.1.1, hp.1.2, hp.2]
    simp only [Bool.and_self, if_true]
    rw [hsp p]

/-- C4 witness: the overlay theorem evaluated on the concrete 2x2 overlay
over a 3x3 parent, with additive compositing. -/
theorem drawIntoParent_overlay_unclipped_witness :
    (∀ p : Pt,
        p.inRect ((c4vp.pixels.bounds.add c4vp.allocPos).intersect c4par.bounds)
          = true →
        (DrawIntoParent (fun a b => a + b) c4vp c4par).pix p
          = (fun a b => a + b) (c4vp.pixels.pix (p.sub c4vp.allocPos))
              (c4par.pix p))
    ∧ (∀ p : Pt,
        p.inRect ((c4vp.pixels.bounds.add c4vp.allocPos).intersect c4par.bounds)
          = false →
        (DrawIntoParent (fun a b => a + b) c4vp c4par).pix p = c4par.pix p)
    ∧ (∀ (cb : Option Rect) (w : Rect),
        DrawIntoParent (fun a b => a + b) { c4vp with par := cb, winBBox := w }
            c4par
          = DrawIntoParent (fun a b => a + b) c4vp c4par)
    ∧ (DrawIntoParent (fun a b => a + b) c4vp c4par).bounds = c4par.bounds :=
  drawIntoParent_overlay_unclipped (fun a b => a + b) c4vp c4par rfl rfl

/-- C5 witness: the nested-compositing theorem evaluated on the concrete
3x3 sub-viewport at (1,1) clipped by a 2x2 parent box. -/
theorem drawIntoParent_nested_clipped_witness :
    ((c5vp.viewBox.bounds.intersect ⟨Pt.zero, ⟨2, 2⟩⟩).Empty = true →
      DrawIntoParent (fun a b => a + b) c5vp c5par = c5par)
    ∧ (∀ p : Pt,
        p.inRect (c5vp.viewBox.bounds.intersect ⟨Pt.zero, ⟨2, 2⟩⟩) = false →
        (DrawIntoParent (fun a b => a + b) c5vp c5par).pix p = c5par.pix p)
    ∧ (∀ p : Pt,
        (p.inRect (c5vp.viewBox.bounds.intersect ⟨Pt.zero, ⟨2, 2⟩⟩)
          && p.inRect c5par.bounds
          && p.inRect (c5vp.pixels.bounds.add c5vp.viewBox.vbMin)) = true →
        (DrawIntoParent (fun a b => a + b) c5vp c5par).pix p
          = (fun a b => a + b) (c5vp.pixels.pix (p.sub c5vp.viewBox.vbMin))
              (c5par.pix p)) :=
  drawIntoParent_nested_clipped (fun a b => a + b) c5vp c5par ⟨Pt.zero, ⟨2, 2⟩⟩
    rfl rfl

/-- C6 counterexample: a completed `Render2D` pass on an overlay viewport
with a parent does NOT leave the clip stacks at their entry depths — the
push lands on the parent's stack while the pop drains the overlay's own
stack (`c6vp` enters with own depth 1 and parent depth 0, and exits with
own depth 0 and parent depth 1). -/
theorem render2D_c6_counterexample :
    (Render2D id c6vp).render.boundsStack.length
        ≠ c6vp.render.boundsStack.length
    ∧ (Render2D id c6vp).parentRender.boundsStack.length
        ≠ c6vp.parentRender.boundsStack.length := by
  decide

/-- C6 (amended): for non-overlay viewports every completed `Render2D`
pass restores both clip-stack depths (a pushed clip is popped, and the
early-return paths for an empty `VpBBox` or empty window-box intersection
push and pop nothing); for overlay viewports the push goes to the PARENT
viewport's stack (when one exists) while the pop drains the overlay's own
stack, so the two depths are not restored. -/
theorem render2D_clip_stack_amended (children : ClipVp → ClipVp)
    (hch : ∀ v : ClipVp,
      (children v).render.boundsStack.length = v.render.boundsStack.length
      ∧ (children v).parentRender.boundsStack.length
          = v.parentRender.boundsStack.length)
    (vp : ClipVp) :
    (vp.overlay = false →
      (Render2D children vp).render.boundsStack.length
          = vp.render.boundsStack.length
      ∧ (Render2D children vp).parentRender.boundsStack.length
          = vp.parentRender.boundsStack.length)
    ∧ (vp.overlay = true → vp.hasParent = true →
      (Render2D children vp).parentRender.boundsStack.length
          = vp.parentRender.boundsStack.length + 1
      ∧ (Render2D children vp).render.boundsStack.length
          = vp.render.boundsStack.length - 1)
    ∧ (vp.overlay = true → vp.hasParent = false →
      (Render2D children vp).parentRender.boundsStack.length
          = vp.parentRender.boundsStack.length
      ∧ (Render2D children vp).render.boundsStack.length
          = vp.render.boundsStack.length - 1) := by
  obtain ⟨ov, vb, wb, hpb, pwb, ppb, rnd, prnd⟩ := vp
  refine ⟨?_, ?_, ?_⟩
  · intro ho
    simp only at ho
    subst ho
    cases h1 : vb.Empty with
    | true =>
      simp [Render2D, PushBounds, h1]
    | false =>
      cases h2 : hpb && (wb.intersect pwb).Empty with
      | true =>
        simp [Render2D, PushBounds, h1, h2]
      | false =>
        obtain ⟨ha, hb⟩ :=
          hch ⟨false, vb, wb, hpb, pwb, ppb, ⟨vb :: rnd.boundsStack⟩, prnd⟩
        simp only at ha hb
        simp [Render2D, PushBounds, PopBounds, h1, h2,
          RenderSt.pushBounds, RenderSt.popBounds, List.length_tail, ha, hb]
  · intro ho hp
    simp only at ho hp
    subst ho
    subst hp
    obtain ⟨ha, hb⟩ :=
      hch ⟨true, vb, wb, true, pwb, ppb, rnd, ⟨ppb :: prnd.boundsStack⟩⟩
    simp only at ha hb
    simp [Render2D, PushBounds, PopBounds,
      RenderSt.pushBounds, RenderSt.popBounds, List.length_tail, ha, hb]
  · intro ho hp
    simp only at ho hp
    subst ho
    subst hp
    obtain ⟨ha, hb⟩ := hch ⟨true, vb, wb, false, pwb, ppb, rnd, prnd⟩
    simp only at ha hb
    simp [Render2D, PushBounds, PopBounds,
      RenderSt.pushBounds, RenderSt.popBounds, List.length_tail, ha, hb]

/-- C6 witness: the amended theorem evaluated with identity child
rendering, on the concrete overlay viewport and on a concrete non-overlay
viewport with nonempty boxes. -/
theorem render2D_clip_stack_amended_witness :
    ((Render2D id c6vpPlain).render.boundsStack.length
        = c6vpPlain.render.boundsStack.length
      ∧ (Render2D id c6vpPlain).parentRender.boundsStack.length
        = c6vpPlain.parentRender.boundsStack.length)
    ∧ ((Render2D id c6vp).parentRender.boundsStack.length
        = c6vp.parentRender.boundsStack.length + 1
      ∧ (Render2D id c6vp).render.boundsStack.length
        = c6vp.render.boundsStack.length - 1) :=
  ⟨(render2D_clip_stack_amended id (fun v => ⟨rfl, rfl⟩) c6vpPlain).1 rfl,
   (render2D_clip_stack_amended id (fun v => ⟨rfl, rfl⟩) c6vp).2.1 rfl rfl⟩

/-- C7: resizing a viewport whose buffer already has the requested size is
a no-op on the buffer — the very same allocation (same id, same contents)
is retained, no OS image is released, and no new one is allocated. -/
theorem resize_same_size_noop (alloc : Pt → Bool) (vp : RVp) (px : RImg)
    (hpx : vp.pixels = some px) :
    (Resize alloc vp px.size).pixels = vp.pixels
    ∧ (Resize alloc vp px.size).osImage = vp.osImage
    ∧ (Resize alloc vp px.size).released = vp.released := by
  by_cases hz : px.size.x = 0 ∨ px.size.y = 0
  · simp [Resize, hz]
  · simp [Resize, hz, hpx]

/-- C7 witness: resizing the concrete viewport `c7vp` (a 2x2 buffer) to
2x2 keeps buffer, OS image and release list unchanged. -/
theorem resize_same_size_noop_witness :
    (Resize (fun _ => true) c7vp (⟨2, 2⟩ : Pt)).pixels = c7vp.pixels
    ∧ (Resize (fun _ => true) c7vp (⟨2, 2⟩ : Pt)).osImage = c7vp.osImage
    ∧ (Resize (fun _ => true) c7vp (⟨2, 2⟩ : Pt)).released = c7vp.released :=
  resize_same_size_noop (fun _ => true) c7vp ⟨3, ⟨2, 2⟩, fun _ => 9⟩ rfl

/-- C8 counterexample: under a failing allocator, `Resize` is NOT atomic
on the OS-image state — starting from `c8vp` (buffer and OS image with
allocation id 1), the old OS image is released (release list goes from
`[]` to `[1]`) and the `OSImage` field is overwritten with the nil result,
contradicting the claim that the previous OS image is retained unchanged
and not released. -/
theorem resize_c8_counterexample :
    (Resize (fun _ => false) c8vp ⟨3, 3⟩).osImage = none
    ∧ c8vp.osImage = some 1
    ∧ (Resize (fun _ => false) c8vp ⟨3, 3⟩).released = [1]
    ∧ c8vp.released = [] :=
  ⟨rfl, rfl, rfl, rfl⟩

/-- C8 (amended): on allocation failure `Resize` logs and returns, leaving
the `Pixels` buffer reference (hence its contents) and `ViewBox.Size`
unchanged — but the old OS image has already been released and the
`OSImage` field holds the nil result of the failed allocation. -/
theorem resize_alloc_failure_amended (alloc : Pt → Bool) (vp : RVp)
    (nwsz : Pt) (oid : Nat)
    (hz : ¬(nwsz.x = 0 ∨ nwsz.y = 0))
    (hdiff : ∀ px : RImg, vp.pixels = some px → px.size ≠ nwsz)
    (hos : vp.osImage = some oid)
    (hfail : alloc nwsz = false) :
    (Resize alloc vp nwsz).pixels = vp.pixels
    ∧ (Resize alloc vp nwsz).viewBoxSize = vp.viewBoxSize
    ∧ (Resize alloc vp nwsz).osImage = none
    ∧ (Resize alloc vp nwsz).released = oid :: vp.released := by
  obtain ⟨pxs, os, vbs, rel, nid⟩ := vp
  simp only at hdiff hos
  subst hos
  cases pxs with
  | none => simp [Resize, hz, hfail]
  | some px =>
    have hne : (px.size == nwsz) = false := by
      simpa [beq_eq_false_iff_ne] using hdiff px rfl
    simp [Resize, hz, hfail, hne]

/-- C8 witness: the amended theorem evaluated on `c8vp` with a failing
allocator and a 3x3 request. -/
theorem resize_alloc_failure_amended_witness :
    (Resize (fun _ => false) c8vp ⟨3, 3⟩).pixels = c8vp.pixels
    ∧ (Resize (fun _ => false) c8vp ⟨3, 3⟩).viewBoxSize = c8vp.viewBoxSize
    ∧ (Resize (fun _ => false) c8vp ⟨3, 3⟩).osImage = none
    ∧ (Resize (fun _ => false) c8vp ⟨3, 3⟩).released = 1 :: c8vp.released :=
  resize_alloc_failure_amended (fun _ => false) c8vp ⟨3, 3⟩ 1 (by decide)
    (fun px h => by
      injection h with h1
      subst h1
      decide)
    rfl rfl

/-- C9 counterexample: a non-popup viewport with a nil buffer whose
allocated size is zero in exactly one dimension (5,0) makes `BBox2D`
dereference the nil buffer (the inner `Resize` is a no-op on a
zero-dimension request) even though the allocator succeeds — the claim
says `BBox2D` never dereferences a nil buffer in this case. -/
theorem bbox2d_c9_counterexample :
    (BBox2D (fun _ => true)
        ⟨⟨none, none, Pt.zero, [], 0⟩, false, ⟨5, 0⟩⟩).2 = none := rfl

/-- C9 (amended): with a nil buffer, `BBox2D` resizes to the fixed 64x64
default only when the allocated size is zero in BOTH dimensions (yielding
a usable 64x64 buffer under a succeeding allocator); when at least one
allocated dimension is zero but the size is not the zero vector — i.e.
exactly one dimension is zero, in either position — the resize request is
dropped by `Resize`'s zero-dimension guard and `BBox2D` dereferences the
nil buffer. -/
theorem bbox2d_zero_size_amended (alloc : Pt → Bool) (vp : BVp) :
    (alloc ⟨64, 64⟩ = true → vp.rvp.pixels = none → vp.allocSize = Pt.zero →
      (BBox2D alloc vp).2 = some ⟨Pt.zero, ⟨64, 64⟩⟩)
    ∧ (vp.rvp.pixels = none →
      (vp.allocSize.x = 0 ∨ vp.allocSize.y = 0) → vp.allocSize ≠ Pt.zero →
      (BBox2D alloc vp).2 = none) := by
  obtain ⟨⟨pxs, os, vbs, rel, nid⟩, pop, asz⟩ := vp
  constructor
  · intro ha hp hz
    simp only at hp hz
    subst hp
    subst hz
    cases os <;>
      simp [BBox2D, Resize, vec2DIsZero, Pt.zero, ha, RImg.boundsOf]
  · intro hp hone hnz
    simp only at hp hone hnz
    subst hp
    obtain ⟨ax, ay⟩ := asz
    rcases hone with hx | hy
    · subst hx
      have hay : ¬(ay = 0) := fun h => hnz (by rw [h]; rfl)
      simp [BBox2D, Resize, vec2DIsZero, hay]
    · subst hy
      have hax : ¬(ax = 0) := fun h => hnz (by rw [h]; rfl)
      simp [BBox2D, Resize, vec2DIsZero, hax]

/-- C9 witness: the amended theorem evaluated on the concrete buffer-less
viewports with allocated sizes (0,0), (7,0) and (0,7). -/
theorem bbox2d_zero_size_amended_witness :
    (BBox2D (fun _ => true) c9vpZero).2 = some ⟨Pt.zero, ⟨64, 64⟩⟩
    ∧ (BBox2D (fun _ => true) c9vpHalf).2 = none
    ∧ (BBox2D (fun _ => true) c9vpHalfY).2 = none :=
  ⟨(bbox2d_zero_size_amended (fun _ => true) c9vpZero).1 rfl rfl rfl,
   (bbox2d_zero_size_amended (fun _ => true) c9vpHalf).2 rfl (Or.inr rfl)
     (by decide),
   (bbox2d_zero_size_amended (fun _ => true) c9vpHalfY).2 rfl (Or.inl rfl)
     (by decide)⟩

set_option maxRecDepth 20000 in
set_option maxHeartbeats 2000000 in
/-- C10: for every in-range key-function code, `FromString` applied to
`String(i)` finds exactly code `i` again (a nil error with the receiver
set to `i`): the stringer round-trips on all 50 named values. -/
theorem keyfuns_string_roundtrip (i : Nat)
    (h : i < KeyFunsIndex.length - 1) :
    KeyFunsFromString (KeyFunsString (Int.ofNat i)) = some (Int.ofNat i) := by
  have hall : ∀ j : Nat, j < 50 →
      KeyFunsFromString (KeyFunsString (Int.ofNat j)) = some (Int.ofNat j) := by
    decide
  have h50 : KeyFunsIndex.length - 1 = 50 := rfl
  rw [h50] at h
  exact hall i h

/-- C10 witness: the round-trip at code 0 (`KeyFunNil`). -/
theorem keyfuns_string_roundtrip_witness :
    0 < KeyFunsIndex.length - 1
    ∧ KeyFunsFromString (KeyFunsString (Int.ofNat 0)) = some (Int.ofNat 0) :=
  ⟨by decide, keyfuns_string_roundtrip 0 (by decide)⟩

end Gi

